import Mathlib

/-!
Shallow embedding of the snapshot-management core of `data_helper`
(`src/data_helper/__init__.py`): the manifest builder inside
`create_snapshot`, the existence checker `check_dataset_exists`, the
manifest store keys, `list_snapshots`, `delete_snapshot`, and the dataset
reconstructor `recreate_dataset`.  Filesystem and object-store state are
passed explicitly; each operation's observable behaviour (keys touched,
files written, warnings emitted) is returned as data.
-/

namespace DataHelper

/-- Python `s.startswith(p)`, over the underlying character lists. -/
def pyStartsWith (s p : String) : Bool :=
  p.data.isPrefixOf s.data

/-- Python `s.endswith(p)`, over the underlying character lists. -/
def pyEndsWith (s p : String) : Bool :=
  p.data.isSuffixOf s.data

/-- Python `os.path.join(a, b)` for POSIX paths as used by the source
(relative second component joined with a single separator). -/
def pathJoin (a b : String) : String :=
  if pyStartsWith b "/" then b
  else if a = "" then b
  else if pyEndsWith a "/" then a ++ b
  else a ++ "/" ++ b

/-- Fuel-indexed worker for Python `str.replace`: scan left to right, at
each position replace a non-overlapping occurrence of `old` or keep one
character.  The fuel is the input length, enough for nonempty `old`. -/
def replaceAllAux : Nat → List Char → List Char → List Char → List Char
  | 0, s, _, _ => s
  | _ + 1, [], _, _ => []
  | n + 1, c :: rest, old, new =>
    if old.isPrefixOf (c :: rest) then
      new ++ replaceAllAux n ((c :: rest).drop old.length) old new
    else
      c :: replaceAllAux n rest old new

/-- Python `s.replace(old, new)`: every non-overlapping occurrence of
`old` in `s`, scanned left to right, is replaced by `new`. -/
def pyReplace (s old new : String) : String :=
  ⟨replaceAllAux s.data.length s.data old.data new.data⟩

/-- Worker for Python `s.split(sep)` on a single-character separator. -/
def pySplitAux (sep : Char) : List Char → List Char → List (List Char)
  | [], cur => [cur.reverse]
  | c :: rest, cur =>
    if c = sep then cur.reverse :: pySplitAux sep rest []
    else pySplitAux sep rest (c :: cur)

/-- Python `s.split(sep)` for a single-character separator: always a
nonempty list of (possibly empty) segments. -/
def pySplit (s : String) (sep : Char) : List String :=
  (pySplitAux sep s.data []).map fun cs => ⟨cs⟩

/-- Python `name.split("/")[-1]` (also `os.path.basename` for the
slash-separated names the source feeds it): the characters after the last
separator. -/
def basename (s : String) : String :=
  ⟨s.data.foldl (fun acc c => if c = '/' then [] else acc ++ [c]) []⟩

/-! ## Existence checker (`check_dataset_exists`, lines 383–414)

The local walk result and the container's blob names are passed in as
lists (`os.walk` order for the first, enumeration order for the second).
-/

/-- The `missing_files` list of `check_dataset_exists`: every local
relative path that is not among the existing blob names. -/
def missing_files (datasetFiles remoteKeys : List String) : List String :=
  datasetFiles.filter fun f => !(decide (f ∈ remoteKeys))

/-- `check_dataset_exists`: `True` exactly when no local relative path is
missing from the remote blob names. -/
def check_dataset_exists (datasetFiles remoteKeys : List String) : Bool :=
  (missing_files datasetFiles remoteKeys).isEmpty

theorem mem_missing_files {datasetFiles remoteKeys : List String} {f : String} :
    f ∈ missing_files datasetFiles remoteKeys ↔ f ∈ datasetFiles ∧ f ∉ remoteKeys := by
  simp [missing_files, List.mem_filter]

theorem check_dataset_exists_true_iff {datasetFiles remoteKeys : List String} :
    check_dataset_exists datasetFiles remoteKeys = true ↔
      ∀ f ∈ datasetFiles, f ∈ remoteKeys := by
  simp [check_dataset_exists, missing_files, List.isEmpty_iff, List.filter_eq_nil_iff]

/-! ## Manifest builder (the scan inside `create_snapshot`, lines 298–312)

A split directory is modelled by its entries: `os.listdir` order, each
with its name and whether `os.path.isfile` holds for it (directories give
`false`); `os.path.exists(split/name)` holds exactly when `name` is among
the entries.  The whole dataset directory maps each split name to its
subdirectory when that exists and is a directory.
-/

/-- A local split subdirectory: `os.listdir` entries in order, each with
its `os.path.isfile` status. -/
structure SplitDir where
  entries : List (String × Bool)
deriving DecidableEq

/-- One pass of the scan loop of `create_snapshot` over the remaining
entries `l`, with `all` the full directory listing (used for the
`os.path.exists` test on the derived annotation name) and `acc` the
`(data_splits[split], annotations[split])` lists built so far. -/
def scanSplitGo (split : String) (all : List (String × Bool)) :
    List (String × Bool) → List String × List String → List String × List String
  | [], acc => acc
  | e :: rest, acc =>
    if pyEndsWith e.1 ".png" && e.2 then
      scanSplitGo split all rest
        (acc.1 ++ [pathJoin split e.1],
          if all.any (fun e2 => e2.1 = pyReplace e.1 ".png" ".txt") then
            acc.2 ++ [pathJoin split (pyReplace e.1 ".png" ".txt")]
          else acc.2)
    else scanSplitGo split all rest acc

/-- The scan of one existing split directory: every direct `.png` file is
appended to `data_splits[split]` as `split/file`; for each such file, if
`file.replace(".png", ".txt")` names an existing entry, `split/` plus
that name is appended to `annotations[split]`. -/
def scanSplit (split : String) (dir : SplitDir) : List String × List String :=
  scanSplitGo split dir.entries dir.entries ([], [])

/-- `data_splits[split]` of the metadata built by `create_snapshot`:
empty when the split subdirectory is missing. -/
def scan_data_splits (fs : String → Option SplitDir) (split : String) : List String :=
  match fs split with
  | some dir => (scanSplit split dir).1
  | none => []

/-- `annotations[split]` of the metadata built by `create_snapshot`:
empty when the split subdirectory is missing. -/
def scan_annotations (fs : String → Option SplitDir) (split : String) : List String :=
  match fs split with
  | some dir => (scanSplit split dir).2
  | none => []

/-- Whether an entry is picked up as an image by the scan:
`file.endswith(".png") and os.path.isfile(...)`. -/
def isPngFile (e : String × Bool) : Bool :=
  pyEndsWith e.1 ".png" && e.2

/-- Whether the annotation derived from entry `e` by
`file.replace(".png", ".txt")` exists among the directory entries. -/
def hasAnn (all : List (String × Bool)) (e : String × Bool) : Bool :=
  all.any fun e2 => e2.1 = pyReplace e.1 ".png" ".txt"

theorem scanSplitGo_spec (split : String) (all : List (String × Bool)) :
    ∀ (l : List (String × Bool)) (acc : List String × List String),
      scanSplitGo split all l acc =
        (acc.1 ++ (l.filter isPngFile).map fun e => pathJoin split e.1,
          acc.2 ++ ((l.filter isPngFile).filter (hasAnn all)).map fun e =>
            pathJoin split (pyReplace e.1 ".png" ".txt"))
  | [], acc => by simp [scanSplitGo]
  | e :: rest, acc => by
    by_cases hp : isPngFile e
    · by_cases ha : hasAnn all e
      · simp only [scanSplitGo, isPngFile, hasAnn] at hp ha ⊢
        rw [hp, ha]
        simp only [if_true]
        rw [scanSplitGo_spec split all rest]
        simp [List.filter_cons, hp, ha, isPngFile, hasAnn]
      · simp only [scanSplitGo, isPngFile, hasAnn] at hp ha ⊢
        rw [hp, if_pos rfl, if_neg (by simpa using ha)]
        rw [scanSplitGo_spec split all rest]
        simp [List.filter_cons, hp, ha, isPngFile, hasAnn]
    · simp only [scanSplitGo, isPngFile] at hp ⊢
      rw [if_neg (by simpa using hp)]
      rw [scanSplitGo_spec split all rest]
      simp [List.filter_cons, hp, isPngFile]

theorem scanSplit_spec (split : String) (dir : SplitDir) :
    scanSplit split dir =
      ((dir.entries.filter isPngFile).map fun e => pathJoin split e.1,
        ((dir.entries.filter isPngFile).filter (hasAnn dir.entries)).map fun e =>
          pathJoin split (pyReplace e.1 ".png" ".txt")) := by
  rw [scanSplit, scanSplitGo_spec]
  simp

/-! ## Manifest store keys and `create_snapshot` (lines 261–332)

`create_snapshot` prompts for the dataset name, refuses on an empty name,
refuses when `check_dataset_exists` returns `True`, and otherwise builds
the metadata, writes it to a local file and uploads it.  The prompt, the
local walk feeding the existence check, and the scan's view of the split
directories enter as parameters; the mutating actions come out as a list
of effects.  The `created_at` timestamp and the free-text description are
environment-dependent strings not modelled. -/

/-- The deterministic manifest key
`snapshots/{dataset_name}/{snapshot_name}/metadata.json`. -/
def metadataKey (datasetName snapshotName : String) : String :=
  "snapshots/" ++ datasetName ++ "/" ++ snapshotName ++ "/metadata.json"

/-- The split/annotation payload of the metadata built by
`create_snapshot` (the modelled fields of `snapshot_metadata`). -/
structure BuiltMeta where
  snapshot_name : String
  dataset_name : String
  data_train : List String
  data_val : List String
  data_test : List String
  ann_train : List String
  ann_val : List String
  ann_test : List String
deriving DecidableEq

/-- The `snapshot_metadata` dictionary filled by the scan loop. -/
def build_metadata (fs : String → Option SplitDir) (datasetName snapshotName : String) :
    BuiltMeta where
  snapshot_name := snapshotName
  dataset_name := datasetName
  data_train := scan_data_splits fs "train"
  data_val := scan_data_splits fs "val"
  data_test := scan_data_splits fs "test"
  ann_train := scan_annotations fs "train"
  ann_val := scan_annotations fs "val"
  ann_test := scan_annotations fs "test"

/-- A mutating action of `create_snapshot`: the local metadata file write
or the blob upload. -/
inductive SnapEffect where
  | writeLocal (path : String) (meta : BuiltMeta)
  | upload (key : String) (meta : BuiltMeta)
deriving DecidableEq

/-- `create_snapshot`: empty entered name or a positive existence check
refuse creation with no effect; otherwise the metadata is written to
`dataset_path/{snapshot_name}_metadata.json` and uploaded at
`snapshots/{dataset_name}/{snapshot_name}/metadata.json`. -/
def create_snapshot (fs : String → Option SplitDir) (localFiles remoteKeys : List String)
    (datasetPath datasetName snapshotName : String) : List SnapEffect :=
  if datasetName = "" then []
  else if check_dataset_exists localFiles remoteKeys then []
  else
    let meta := build_metadata fs datasetName snapshotName
    [SnapEffect.writeLocal (pathJoin datasetPath (snapshotName ++ "_metadata.json")) meta,
      SnapEffect.upload ("snapshots/" ++ datasetName ++ "/" ++ snapshotName ++ "/metadata.json")
        meta]

/-! ## `list_snapshots` (lines 336–360) and `delete_snapshot` (lines 363–381)

The container's blob names enter as a list in enumeration order; the
Python `set` accumulated by `list_snapshots` is modelled as a
duplicate-free list in insertion order. -/

/-- `list_snapshots`: among blob names starting with `snapshots/`, take
`name.split("/")[1]` whenever the split has more than one segment, and
accumulate the distinct values. -/
def list_snapshots (keys : List String) : List String :=
  (keys.filter fun k => pyStartsWith k "snapshots/").foldl
    (fun acc k =>
      let parts := pySplit k '/'
      if 1 < parts.length then
        let e := parts.getD 1 ""
        if e ∈ acc then acc else acc ++ [e]
      else acc) []

/-- The prefix `delete_snapshot` deletes under:
`snapshots/{snapshot_name}/` (no dataset segment). -/
def delete_pfx (snapshotName : String) : String :=
  "snapshots/" ++ snapshotName ++ "/"

/-- The blob names remaining after `delete_snapshot`: every name with
the prefix `snapshots/{snapshot_name}/` is deleted, the rest stay. -/
def delete_snapshot (keys : List String) (snapshotName : String) : List String :=
  keys.filter fun k => !(pyStartsWith k (delete_pfx snapshotName))

/-! ## Dataset reconstructor (`recreate_dataset`, lines 167–259)

The fetched-and-parsed metadata is a `Manifest`; the store's blob names
enter in enumeration order; per-blob download success is an oracle.  The
operation's observable behaviour is the list of effects it performs, in
order. -/

/-- The fields of the fetched snapshot metadata used by
`recreate_dataset`; `dataset_name` is `none` when the JSON lacks the
field, and the split dictionaries are association lists in iteration
order. -/
structure Manifest where
  dataset_name : Option String
  data_splits : List (String × List String)
  annotations : List (String × List String)
deriving DecidableEq

/-- `blob_dict`: fold the blob names whose key starts with the prefix,
later entries overwriting earlier ones at the same base filename; the
dictionary is its lookup function. -/
def buildBlobDict (keys : List String) (pfx : String) : String → Option String :=
  (keys.filter fun k => pyStartsWith k pfx).foldl
    (fun m k => fun n => if n = basename k then some k else m n)
    (fun _ => none)

/-- An observable step of `recreate_dataset`, in program order. -/
inductive RecEffect where
  | fetch (key : String)
  | listBlobs (pfx : String)
  | mkdir (path : String)
  | download (blobKey : String) (localPath : String)
  | dlFailed (blobKey : String)
  | warn (fileName : String)
deriving DecidableEq

/-- The body of the per-file loop: look the base filename up in
`blob_dict`; on a hit, download to `destDir/split/filename` (a failure is
caught and logged); on a miss, warn and continue. -/
def processEntry (dict : String → Option String) (dl : String → Bool)
    (destDir split file : String) : RecEffect :=
  let name := basename file
  match dict name with
  | some k =>
    if dl k then RecEffect.download k (pathJoin (pathJoin destDir split) name)
    else RecEffect.dlFailed k
  | none => RecEffect.warn name

/-- Both download loops of `recreate_dataset`: the files of every split,
each producing exactly one effect. -/
def processSplits (dict : String → Option String) (dl : String → Bool) (destDir : String)
    (splits : List (String × List String)) : List RecEffect :=
  splits.foldl (fun acc p => acc ++ p.2.map (processEntry dict dl destDir p.1)) []

/-- `recreate_dataset` after the metadata fetch: abort when the metadata
has no nonempty `dataset_name`; otherwise list the blobs under
`dataset_name/`, create the destination and the three split directories
unconditionally, then run both download loops. -/
def recreateAfterFetch (keys : List String) (dl : String → Bool)
    (destination : String) (m : Manifest) : List RecEffect :=
  match m.dataset_name with
  | none => []
  | some d =>
    if d = "" then []
    else
      let dict := buildBlobDict keys (d ++ "/")
      let destDir := pathJoin destination d
      RecEffect.listBlobs (d ++ "/") ::
        RecEffect.mkdir destDir ::
        RecEffect.mkdir (pathJoin destDir "train") ::
        RecEffect.mkdir (pathJoin destDir "val") ::
        RecEffect.mkdir (pathJoin destDir "test") ::
        (processSplits dict dl destDir m.data_splits ++
          processSplits dict dl destDir m.annotations)

/-- `recreate_dataset`: refuse an empty entered dataset name, fetch the
metadata at `snapshots/{entered}/{snapshot_name}/metadata.json`, abort on
a failed fetch, and otherwise continue from the fetched metadata. -/
def recreate_dataset (fetchMeta : String → Option Manifest) (keys : List String)
    (dl : String → Bool) (snapshotName destination enteredName : String) : List RecEffect :=
  if enteredName = "" then []
  else
    let mkey := "snapshots/" ++ enteredName ++ "/" ++ snapshotName ++ "/metadata.json"
    RecEffect.fetch mkey ::
      match fetchMeta mkey with
      | none => []
      | some m => recreateAfterFetch keys dl destination m

/-! ## Lemmas about the embedded operations -/

theorem buildBlobDictGo_spec (n : String) :
    ∀ (l : List String) (m : String → Option String),
      (l.foldl (fun m k => fun x => if x = basename k then some k else m x) m) n =
        match l.reverse.find? (fun k => basename k = n) with
        | some k => some k
        | none => m n
  | [], m => by simp
  | k :: t, m => by
    rw [List.foldl_cons, buildBlobDictGo_spec n t, List.reverse_cons, List.find?_append]
    cases hf : t.reverse.find? fun k => basename k = n with
    | some k' => simp [hf]
    | none =>
      by_cases hk : basename k = n
      · simp [hf, hk, List.find?_cons]
      · have hk' : ¬ n = basename k := fun h => hk h.symm
        simp [hf, hk, hk', List.find?_cons]

theorem buildBlobDict_spec (keys : List String) (pfx n : String) :
    buildBlobDict keys pfx n =
      ((keys.filter fun k => pyStartsWith k pfx).reverse.find? fun k => basename k = n) := by
  rw [buildBlobDict, buildBlobDictGo_spec]
  cases hf : (keys.filter fun k => pyStartsWith k pfx).reverse.find? fun k => basename k = n <;>
    simp [hf]

theorem processSplits_eq_join (dict : String → Option String) (dl : String → Bool)
    (destDir : String) (splits : List (String × List String)) :
    processSplits dict dl destDir splits =
      (splits.map fun p => p.2.map (processEntry dict dl destDir p.1)).flatten := by
  suffices h : ∀ (l : List (String × List String)) (acc : List RecEffect),
      l.foldl (fun acc p => acc ++ p.2.map (processEntry dict dl destDir p.1)) acc =
        acc ++ (l.map fun p => p.2.map (processEntry dict dl destDir p.1)).flatten by
    simpa using h splits []
  intro l
  induction l with
  | nil => simp
  | cons p t ih => intro acc; simp [ih, List.append_assoc]

/-- Membership and distinctness of the `list_snapshots` accumulator. -/
theorem list_snapshots_go_spec :
    ∀ (l : List String) (acc : List String), acc.Nodup →
      (l.foldl
          (fun acc k =>
            let parts := pySplit k '/'
            if 1 < parts.length then
              let e := parts.getD 1 ""
              if e ∈ acc then acc else acc ++ [e]
            else acc) acc).Nodup ∧
        ∀ e, e ∈ l.foldl
            (fun acc k =>
              let parts := pySplit k '/'
              if 1 < parts.length then
                let e := parts.getD 1 ""
                if e ∈ acc then acc else acc ++ [e]
              else acc) acc ↔
          e ∈ acc ∨ ∃ k ∈ l, 1 < (pySplit k '/').length ∧ (pySplit k '/').getD 1 "" = e
  | [], acc, h => by simpa using h
  | k :: t, acc, h => by
    rw [List.foldl_cons]
    have step :
        ∀ acc' : List String, acc'.Nodup →
          ((if 1 < (pySplit k '/').length then
              if (pySplit k '/').getD 1 "" ∈ acc' then acc'
              else acc' ++ [(pySplit k '/').getD 1 ""]
            else acc').Nodup ∧
            ∀ e, e ∈ (if 1 < (pySplit k '/').length then
                if (pySplit k '/').getD 1 "" ∈ acc' then acc'
                else acc' ++ [(pySplit k '/').getD 1 ""]
              else acc') ↔
              e ∈ acc' ∨ 1 < (pySplit k '/').length ∧ (pySplit k '/').getD 1 "" = e) := by
      intro acc' h'
      by_cases hl : 1 < (pySplit k '/').length
      · rw [if_pos hl]
        by_cases hm : (pySplit k '/').getD 1 "" ∈ acc'
        · rw [if_pos hm]
          refine ⟨h', fun e => ?_⟩
          constructor
          · exact fun he => Or.inl he
          · rintro (he | ⟨-, rfl⟩)
            · exact he
            · exact hm
        · rw [if_neg hm]
          refine ⟨?_, fun e => ?_⟩
          · simp only [List.nodup_append, List.nodup_singleton, List.disjoint_singleton]
            exact ⟨h', trivial, hm⟩
          · simp only [List.mem_append, List.mem_singleton]
            constructor
            · rintro (he | rfl)
              · exact Or.inl he
              · exact Or.inr ⟨hl, rfl⟩
            · rintro (he | ⟨-, rfl⟩)
              · exact Or.inl he
              · exact Or.inr rfl
      · rw [if_neg hl]
        refine ⟨h', fun e => ?_⟩
        simp [hl]
    obtain ⟨hn, hmem⟩ := step acc h
    obtain ⟨hn', hmem'⟩ := list_snapshots_go_spec t _ hn
    refine ⟨hn', fun e => ?_⟩
    rw [hmem' e, hmem e]
    constructor
    · rintro ((he | ⟨hlen, hseg⟩) | ⟨k', hk', hlen, hseg⟩)
      · exact Or.inl he
      · exact Or.inr ⟨k, List.mem_cons_self k t, hlen, hseg⟩
      · exact Or.inr ⟨k', List.mem_cons_of_mem k hk', hlen, hseg⟩
    · rintro (he | ⟨k', hk', hlen, hseg⟩)
      · exact Or.inl (Or.inl he)
      · rcases List.mem_cons.mp hk' with rfl | hk'
        · exact Or.inl (Or.inr ⟨hlen, hseg⟩)
        · exact Or.inr ⟨k', hk', hlen, hseg⟩

/-! ## Spec-side comparison definitions

For refutation, the spec's own wording of two behaviours is formalised
separately from the source-derived definitions above and compared with
them. -/

/-- Follows the spec's words, not the source: the expected annotation
filename derived "by extension substitution" — the image's base name
(name minus the 4-character `.png` extension) with the annotation
extension `.txt`. -/
def specAnnName (file : String) : String :=
  String.mk (file.data.take (file.data.length - 4)) ++ ".txt"

/-- Follows the spec's words, not the source: `annotations[split]` holds,
for each image file of the split, the split-prefixed substituted name
whenever a file with that name exists in the same directory. -/
def spec_expected_ann (fs : String → Option SplitDir) (split : String) : List String :=
  match fs split with
  | none => []
  | some dir =>
    ((dir.entries.filter isPngFile).filter fun e =>
        dir.entries.any fun e2 => (e2.1 == specAnnName e.1) && e2.2).map fun e =>
      pathJoin split (specAnnName e.1)

/-- Follows the spec's words, not the source: the distinct
(dataset, snapshot) identifier pairs derived from the path segments of
the keys under `snapshots/`. -/
def snapshotPairs (keys : List String) : List (String × String) :=
  (keys.filter fun k => pyStartsWith k "snapshots/").foldl
    (fun acc k =>
      let parts := pySplit k '/'
      if 2 < parts.length then
        let p := (parts.getD 1 "", parts.getD 2 "")
        if p ∈ acc then acc else acc ++ [p]
      else acc) []

/-! ## Concrete instances used by the claims -/

/-- The claim C1 scenario: `train/a.png` with `train/a.txt`, `val/b.png`
without an annotation, no `test` subdirectory. -/
def fsFoo : String → Option SplitDir := fun s =>
  if s = "train" then some ⟨[("a.png", true), ("a.txt", true)]⟩
  else if s = "val" then some ⟨[("b.png", true)]⟩
  else none

/-- A dataset whose image name contains `.png` twice, with the
extension-substituted annotation file present. -/
def fsPngPng : String → Option SplitDir := fun s =>
  if s = "train" then some ⟨[("a.png.png", true), ("a.png.txt", true)]⟩ else none

/-- Two snapshots of the same dataset in the store. -/
def demoKeys : List String :=
  ["snapshots/ds/s1/metadata.json", "snapshots/ds/s2/metadata.json"]

/-- A fetched manifest with all three splits empty. -/
def mEmpty : Manifest :=
  ⟨some "ds", [("train", []), ("val", []), ("test", [])],
    [("train", []), ("val", []), ("test", [])]⟩

/-! ## The claims -/

/-- C1 counterexample: for a dataset with `train/a.png.png` and
`train/a.png.txt`, the claim predicts that `train/a.png.txt` (the name
from extension substitution, which exists) is appended to
`annotations[train]`, but the scan derives `a.txt.txt` by replacing every
occurrence of `.png` and appends nothing. -/
theorem claim1_counterexample :
    scan_annotations fsPngPng "train" = [] ∧
      spec_expected_ann fsPngPng "train" = ["train/a.png.txt"] ∧
      scan_annotations fsPngPng "train" ≠ spec_expected_ann fsPngPng "train" :=
  ⟨by decide, by decide, by decide⟩

/-- C1 (amended): the scan of `create_snapshot` populates
`data_splits[split]` with every direct `.png` file of an existing split
subdirectory (split-prefixed, in listing order, an empty list for a
missing subdirectory), and `annotations[split]` with the split-prefixed
name obtained by replacing every occurrence of `.png` with `.txt`,
whenever an entry with that name exists in the same directory; missing
such entries are silently skipped, other file types are ignored.  The
claim's concrete scenario holds as stated. -/
theorem claim1_manifest_builder (fs : String → Option SplitDir) (split : String) :
    (scan_data_splits fs split =
        ((fs split).elim [] fun dir =>
          (dir.entries.filter isPngFile).map fun e => pathJoin split e.1) ∧
      scan_annotations fs split =
        ((fs split).elim [] fun dir =>
          ((dir.entries.filter isPngFile).filter (hasAnn dir.entries)).map fun e =>
            pathJoin split (pyReplace e.1 ".png" ".txt"))) ∧
      scan_data_splits fsFoo "train" = ["train/a.png"] ∧
      scan_data_splits fsFoo "val" = ["val/b.png"] ∧
      scan_data_splits fsFoo "test" = [] ∧
      scan_annotations fsFoo "train" = ["train/a.txt"] ∧
      scan_annotations fsFoo "val" = [] ∧
      scan_annotations fsFoo "test" = [] := by
  refine ⟨⟨?_, ?_⟩, by decide, by decide, by decide, by decide, by decide, by decide⟩
  · cases h : fs split with
    | none => simp [scan_data_splits, h]
    | some dir => simp [scan_data_splits, h, scanSplit_spec]
  · cases h : fs split with
    | none => simp [scan_annotations, h]
    | some dir => simp [scan_annotations, h, scanSplit_spec]

/-- C2: `check_dataset_exists` returns true iff every local relative path
is among the remote keys, the missing-list holds exactly the local paths
absent remotely, and appending a locally-new file that is absent remotely
flips the result to false with that file reported missing. -/
theorem claim2_existence_check (localFiles remoteKeys : List String) :
    (check_dataset_exists localFiles remoteKeys = true ↔
        ∀ f ∈ localFiles, f ∈ remoteKeys) ∧
      (∀ f, f ∈ missing_files localFiles remoteKeys ↔
        f ∈ localFiles ∧ f ∉ remoteKeys) ∧
      ∀ x, x ∉ remoteKeys →
        check_dataset_exists (localFiles ++ [x]) remoteKeys = false ∧
          x ∈ missing_files (localFiles ++ [x]) remoteKeys := by
  refine ⟨check_dataset_exists_true_iff, fun f => mem_missing_files, fun x hx => ⟨?_, ?_⟩⟩
  · rcases Bool.eq_false_or_eq_true (check_dataset_exists (localFiles ++ [x]) remoteKeys)
      with h | h
    · exact absurd (check_dataset_exists_true_iff.mp h x (by simp)) hx
    · exact h
  · exact mem_missing_files.mpr ⟨by simp, hx⟩

/-- C2 witness: adding `train/b.png`, absent remotely, to a local set
that was fully present flips the check to false and reports it. -/
theorem claim2_witness :
    check_dataset_exists (["train/a.png"] ++ ["train/b.png"]) ["train/a.png"] = false ∧
      "train/b.png" ∈ missing_files (["train/a.png"] ++ ["train/b.png"]) ["train/a.png"] :=
  (claim2_existence_check ["train/a.png"] ["train/a.png"]).2.2 "train/b.png" (by decide)

/-- C3: when creation proceeds, `create_snapshot` uploads the metadata at
exactly `snapshots/{dataset_name}/{snapshot_name}/metadata.json`, and
`recreate_dataset`, given the same dataset and snapshot names, fetches
from exactly that key. -/
theorem claim3_metadata_key (fs : String → Option SplitDir)
    (localFiles remoteKeys : List String) (datasetPath d s : String)
    (hd : d ≠ "") (hc : check_dataset_exists localFiles remoteKeys = false) :
    create_snapshot fs localFiles remoteKeys datasetPath d s =
        [SnapEffect.writeLocal (pathJoin datasetPath (s ++ "_metadata.json"))
            (build_metadata fs d s),
          SnapEffect.upload (metadataKey d s) (build_metadata fs d s)] ∧
      ∀ (fetchMeta : String → Option Manifest) (keys : List String) (dl : String → Bool)
        (destination : String),
        (recreate_dataset fetchMeta keys dl s destination d).head? =
          some (RecEffect.fetch (metadataKey d s)) := by
  constructor
  · simp [create_snapshot, hd, hc, metadataKey]
  · intro fetchMeta keys dl destination
    simp [recreate_dataset, hd, metadataKey]

/-- C3 witness: with dataset `ds` and snapshot `snap`, the upload and
the fetch both target `snapshots/ds/snap/metadata.json`. -/
theorem claim3_witness :
    create_snapshot (fun _ => none) ["x"] [] "data" "ds" "snap" =
        [SnapEffect.writeLocal "data/snap_metadata.json"
            (build_metadata (fun _ => none) "ds" "snap"),
          SnapEffect.upload "snapshots/ds/snap/metadata.json"
            (build_metadata (fun _ => none) "ds" "snap")] ∧
      (recreate_dataset (fun _ => none) [] (fun _ => true) "snap" "." "ds").head? =
        some (RecEffect.fetch "snapshots/ds/snap/metadata.json") := by
  have h := claim3_metadata_key (fun _ => none) ["x"] [] "data" "ds" "snap"
    (by decide) (by decide)
  exact ⟨h.1.trans (by decide), (h.2 (fun _ => none) [] (fun _ => true) ".").trans (by decide)⟩

/-- C4: the manifest of dataset `ds`, snapshot `snap` lives at
`snapshots/ds/snap/metadata.json`, which lies under the snapshot's full
key prefix `snapshots/ds/snap/`; yet `delete_snapshot "snap"` deletes
only under `snapshots/snap/` and leaves that manifest in the store, so a
subsequent fetch still finds it. -/
theorem claim4_delete_misses_manifest :
    metadataKey "ds" "snap" = "snapshots/ds/snap/metadata.json" ∧
      pyStartsWith (metadataKey "ds" "snap") "snapshots/ds/snap/" = true ∧
      delete_pfx "snap" = "snapshots/snap/" ∧
      delete_snapshot [metadataKey "ds" "snap"] "snap" = [metadataKey "ds" "snap"] :=
  ⟨by decide, by decide, by decide, by decide⟩

/-- C5 counterexample: two snapshots `s1`, `s2` of dataset `ds` are two
distinct (dataset, snapshot) pairs, but `list_snapshots` yields the
single entry `ds`. -/
theorem claim5_counterexample :
    snapshotPairs demoKeys = [("ds", "s1"), ("ds", "s2")] ∧
      list_snapshots demoKeys = ["ds"] ∧
      (list_snapshots demoKeys).length ≠ (snapshotPairs demoKeys).length :=
  ⟨by decide, by decide, by decide⟩

/-- C5 (amended): `list_snapshots` derives, from the keys under the
`snapshots/` namespace, the duplicate-free set of second path segments
(the dataset names), one entry per dataset rather than one per
(dataset, snapshot) pair; listing after storing the same
dataset/snapshot key twice still yields that single entry. -/
theorem claim5_list_snapshots (keys : List String) :
    (list_snapshots keys).Nodup ∧
      (∀ e, e ∈ list_snapshots keys ↔
        ∃ k ∈ keys, pyStartsWith k "snapshots/" = true ∧
          1 < (pySplit k '/').length ∧ (pySplit k '/').getD 1 "" = e) ∧
      list_snapshots [metadataKey "ds" "s1", metadataKey "ds" "s1"] = ["ds"] := by
  obtain ⟨hn, hmem⟩ :=
    list_snapshots_go_spec (keys.filter fun k => pyStartsWith k "snapshots/") []
      List.nodup_nil
  refine ⟨hn, fun e => ?_, by decide⟩
  rw [list_snapshots, hmem e]
  simp only [List.mem_nil_iff, false_or, List.mem_filter]
  constructor
  · rintro ⟨k, ⟨hk, hpfx⟩, hlen, hseg⟩
    exact ⟨k, hk, hpfx, hlen, hseg⟩
  · rintro ⟨k, hk, hpfx, hlen, hseg⟩
    exact ⟨k, ⟨hk, hpfx⟩, hlen, hseg⟩

/-- C6: the reconstructor's `blob_dict` is built over exactly the keys
with the dataset's `dataset_name/` prefix, maps each base filename to a
full key, and a lookup returns the last enumerated prefixed key bearing
that base filename; in particular with two keys sharing base filename
`img.png`, the later one wins. -/
theorem claim6_lookup_index (keys : List String) (d n : String) :
    (buildBlobDict keys (d ++ "/") n =
        ((keys.filter fun k => pyStartsWith k (d ++ "/")).reverse.find? fun k =>
          basename k = n)) ∧
      ((buildBlobDict keys (d ++ "/") n).isSome ↔
        ∃ k ∈ keys, pyStartsWith k (d ++ "/") = true ∧ basename k = n) ∧
      buildBlobDict ["ds/p1/img.png", "ds/p2/img.png"] "ds/" "img.png" =
        some "ds/p2/img.png" := by
  refine ⟨buildBlobDict_spec keys (d ++ "/") n, ?_, by decide⟩
  rw [buildBlobDict_spec keys (d ++ "/") n]
  rw [List.find?_isSome]
  constructor
  · rintro ⟨k, hk, hb⟩
    rw [List.mem_reverse, List.mem_filter] at hk
    exact ⟨k, hk.1, hk.2, of_decide_eq_true hb⟩
  · rintro ⟨k, hk, hpfx, hb⟩
    exact ⟨k, List.mem_reverse.mpr (List.mem_filter.mpr ⟨hk, hpfx⟩), decide_eq_true hb⟩

/-- C7: after a successful fetch, the reconstructor lists the dataset's
blobs, creates the destination and the three split directories
unconditionally, and then processes every path of `data_splits` and
`annotations` individually, each path yielding exactly one effect: a
missing base filename gives a per-file warning, a failing download gives
a caught-and-logged failure, and neither interrupts the remaining
paths. -/
theorem claim7_reconstructor (keys : List String) (dl : String → Bool)
    (destination : String) (m : Manifest) (d : String)
    (h1 : m.dataset_name = some d) (h2 : d ≠ "") :
    (recreateAfterFetch keys dl destination m =
        RecEffect.listBlobs (d ++ "/") ::
          RecEffect.mkdir (pathJoin destination d) ::
          RecEffect.mkdir (pathJoin (pathJoin destination d) "train") ::
          RecEffect.mkdir (pathJoin (pathJoin destination d) "val") ::
          RecEffect.mkdir (pathJoin (pathJoin destination d) "test") ::
          ((m.data_splits.map fun p =>
              p.2.map (processEntry (buildBlobDict keys (d ++ "/")) dl
                (pathJoin destination d) p.1)).flatten ++
            (m.annotations.map fun p =>
              p.2.map (processEntry (buildBlobDict keys (d ++ "/")) dl
                (pathJoin destination d) p.1)).flatten)) ∧
      (∀ split file, buildBlobDict keys (d ++ "/") (basename file) = none →
        processEntry (buildBlobDict keys (d ++ "/")) dl (pathJoin destination d) split file =
          RecEffect.warn (basename file)) ∧
      ∀ split file k, buildBlobDict keys (d ++ "/") (basename file) = some k →
        dl k = false →
        processEntry (buildBlobDict keys (d ++ "/")) dl (pathJoin destination d) split file =
          RecEffect.dlFailed k := by
  refine ⟨?_, fun split file hnone => ?_, fun split file k hsome hfail => ?_⟩
  · simp [recreateAfterFetch, h1, h2, processSplits_eq_join]
  · simp [processEntry, hnone]
  · simp [processEntry, hsome, hfail]

/-- C7 witness: a manifest whose three splits are all empty still gets
the listing, the destination directory and the three split directories,
and nothing else. -/
theorem claim7_witness :
    recreateAfterFetch [] (fun _ => true) "." mEmpty =
      [RecEffect.listBlobs "ds/", RecEffect.mkdir "./ds", RecEffect.mkdir "./ds/train",
        RecEffect.mkdir "./ds/val", RecEffect.mkdir "./ds/test"] := by
  have h := claim7_reconstructor [] (fun _ => true) "." mEmpty "ds" rfl (by decide)
  exact h.1.trans (by decide)

/-- C8: whenever the existence check succeeds, `create_snapshot` refuses
creation with no effect: no local metadata file write and no upload. -/
theorem claim8_refuses_existing (fs : String → Option SplitDir)
    (localFiles remoteKeys : List String) (datasetPath d s : String)
    (h : check_dataset_exists localFiles remoteKeys = true) :
    create_snapshot fs localFiles remoteKeys datasetPath d s = [] := by
  by_cases hd : d = "" <;> simp [create_snapshot, hd, h]

/-- C8 witness: with the single local file already remote, creation is
refused without effects. -/
theorem claim8_witness :
    create_snapshot (fun _ => none) ["train/a.png"] ["train/a.png"] "data" "ds" "snap" = [] :=
  claim8_refuses_existing (fun _ => none) ["train/a.png"] ["train/a.png"] "data" "ds" "snap"
    (by decide)

/-- C9: a local walk that finds no files yields an empty missing-list and
a positive existence check, so `create_snapshot` performs no effect for
such a dataset path. -/
theorem claim9_empty_walk (remoteKeys : List String) (fs : String → Option SplitDir)
    (datasetPath d s : String) :
    check_dataset_exists [] remoteKeys = true ∧
      missing_files [] remoteKeys = [] ∧
      create_snapshot fs [] remoteKeys datasetPath d s = [] := by
  refine ⟨rfl, rfl, ?_⟩
  by_cases hd : d = "" <;> simp [create_snapshot, hd, check_dataset_exists, missing_files]

/-- C10: once the fetch at the interactively entered name succeeds, every
further effect of `recreate_dataset` is a function of the fetched
manifest alone; a manifest without a `dataset_name` aborts with no
listing or download, and one with nonempty `dataset_name` `d` lists under
`d/` and targets the local directory `destination/d`, both taken from the
manifest field. -/
theorem claim10_manifest_name (fetchMeta : String → Option Manifest)
    (keys : List String) (dl : String → Bool) (s destination enteredName : String)
    (m : Manifest) (he : enteredName ≠ "")
    (hf : fetchMeta ("snapshots/" ++ enteredName ++ "/" ++ s ++ "/metadata.json") = some m) :
    (recreate_dataset fetchMeta keys dl s destination enteredName =
        RecEffect.fetch ("snapshots/" ++ enteredName ++ "/" ++ s ++ "/metadata.json") ::
          recreateAfterFetch keys dl destination m) ∧
      (m.dataset_name = none → recreateAfterFetch keys dl destination m = []) ∧
      ∀ d, m.dataset_name = some d → d ≠ "" →
        ∃ rest, recreateAfterFetch keys dl destination m =
          RecEffect.listBlobs (d ++ "/") :: RecEffect.mkdir (pathJoin destination d) :: rest := by
  refine ⟨?_, fun hnone => ?_, fun d hd hne => ?_⟩
  · simp [recreate_dataset, he, hf]
  · simp [recreateAfterFetch, hnone]
  · refine ⟨RecEffect.mkdir (pathJoin (pathJoin destination d) "train") ::
      RecEffect.mkdir (pathJoin (pathJoin destination d) "val") ::
      RecEffect.mkdir (pathJoin (pathJoin destination d) "test") ::
      (processSplits (buildBlobDict keys (d ++ "/")) dl (pathJoin destination d) m.data_splits ++
        processSplits (buildBlobDict keys (d ++ "/")) dl (pathJoin destination d)
          m.annotations), ?_⟩
    simp [recreateAfterFetch, hd, hne]

/-- C10 witness: entering `e` while the fetched manifest names dataset
`ds` makes the reconstructor list under `ds/` and build `./ds`, not
anything derived from `e`. -/
theorem claim10_witness :
    recreate_dataset
        (fun k => if k = "snapshots/e/snap/metadata.json" then some mEmpty else none)
        [] (fun _ => true) "snap" "." "e" =
      [RecEffect.fetch "snapshots/e/snap/metadata.json", RecEffect.listBlobs "ds/",
        RecEffect.mkdir "./ds", RecEffect.mkdir "./ds/train", RecEffect.mkdir "./ds/val",
        RecEffect.mkdir "./ds/test"] := by
  have h := claim10_manifest_name
    (fun k => if k = "snapshots/e/snap/metadata.json" then some mEmpty else none)
    [] (fun _ => true) "snap" "." "e" mEmpty (by decide) (by decide)
  exact h.1.trans (by decide)

end DataHelper
